import Mathlib

/-!
Verification of the speX perception layer.

This file gives a shallow embedding of the decision logic of the speX
assistive-perception repository and proves properties of it:

* `FaceRecognitionManager.process_frame` (src/face_recognition_manager.py):
  identity resolution with per-name announcement cooldown;
* `FaceRecognizer.recognize_faces` (src/face_recognizer.py): the alternative
  first-match resolution policy;
* `GestureRecognizer` (src/recognition/gesture_recognizer.py): finger-state
  extraction, static gesture rules, wave/namaste heuristics and the
  auto-stop state machine;
* `ObjectDetector` (src/recognition/object_detector.py): priority triage,
  description generation and per-label tracking history;
* `IntegratedSystem.check_important_changes` (src/integrated_system.py):
  the monitoring-loop predicate, including a dynamic-typing model of the
  value actually passed to it.

Numeric quantities (timestamps, embedding distances, angles) are modelled
as rationals; embeddings and face locations are abstract type parameters,
with the embedding distance function passed in explicitly (the embedding
extraction itself is an external collaborator of the repository).
-/

/-- Python `dict.get`: first binding of the key in an association list,
`none` when absent. -/
def pyDictGet {α : Type} (d : List (String × α)) (k : String) : Option α :=
  (d.find? (fun p => p.1 == k)).map (fun p => p.2)

/-- Python `dict[k] = v`: replace the value of an existing key in place,
otherwise append the new binding at the end (insertion order preserved). -/
def pyDictSet {α : Type} : List (String × α) → String → α → List (String × α)
  | [], k, v => [(k, v)]
  | (k', v') :: rest, k, v =>
    if k' == k then (k', v) :: rest else (k', v') :: pyDictSet rest k v

/-- `np.argmin` on a running scan: `i` is the index of the next element,
`best` the index of the current minimum, `bv` its value.  A strictly
smaller element replaces the current minimum, so the first occurrence of
the minimum wins, as in NumPy. -/
def np_argminAux : List ℚ → ℕ → ℕ → ℚ → ℕ
  | [], _, best, _ => best
  | x :: xs, i, best, bv =>
    if x < bv then np_argminAux xs (i + 1) i x else np_argminAux xs (i + 1) best bv

/-- `np.argmin`: index of the first minimal element (`0` on the empty
list, which the callers never pass). -/
def np_argmin : List ℚ → ℕ
  | [] => 0
  | x :: xs => np_argminAux xs 1 0 x

/-- The persisted identity gallery of `FaceRecognitionManager`: three
parallel lists loaded from `face_recognition_data.pkl`. -/
structure Gallery (E : Type) where
  encodings : List E
  names : List String
  relations : List String
deriving DecidableEq

/-- `FaceRecognitionManager.load_face_data`: `some d` models a readable
pickle file holding `d`; `none` models `FileNotFoundError`, which the
code catches, returning the empty gallery instead of raising. -/
def load_face_data {E : Type} : Option (Gallery E) → Gallery E
  | some d => d
  | none => ⟨[], [], []⟩

/-- `face_recognition.face_distance`: distance from each gallery encoding
to the probe encoding. -/
def face_distances {E : Type} (encodings : List E) (dist : E → E → ℚ) (enc : E) : List ℚ :=
  encodings.map (fun e => dist e enc)

/-- `face_recognition.compare_faces`: one boolean per gallery encoding,
true when its distance to the probe is within the tolerance. -/
def compare_faces {E : Type} (encodings : List E) (dist : E → E → ℚ) (enc : E)
    (tol : ℚ) : List Bool :=
  encodings.map (fun e => decide (dist e enc ≤ tol))

/-- The match step of `FaceRecognitionManager.process_frame` (lines
84-99): if some gallery encoding is within tolerance, resolve to the
name and relation at the index of minimum distance (`np.argmin`). -/
def resolve_match {E : Type} (g : Gallery E) (dist : E → E → ℚ) (tol : ℚ)
    (enc : E) : Option (String × String) :=
  if (compare_faces g.encodings dist enc tol).contains true then
    let i := np_argmin (face_distances g.encodings dist enc)
    some (g.names.getD i "", g.relations.getD i "")
  else none

/-- A recognition record produced by `process_frame`, with the bounding
location kept abstract. -/
structure Recognition (L : Type) where
  name : String
  relation : Option String
  description : String
  location : L
deriving DecidableEq

/-- The relation-aware phrasing of `process_frame` (lines 107-110). -/
def describe_known (name rel : String) : String :=
  if ["mom", "dad", "brother", "sister"].contains rel then
    "your " ++ rel ++ " " ++ name
  else
    name ++ ", who is " ++ rel

/-- The record appended for an announced known identity. -/
def knownRecognition {L : Type} (name rel : String) (loc : L) : Recognition L :=
  ⟨name, some rel, describe_known name rel, loc⟩

/-- The record appended for a face matching no gallery entry
(lines 121-127). -/
def unknownRecognition {L : Type} (loc : L) : Recognition L :=
  ⟨"Unknown", none, "someone I don\x27t recognize", loc⟩

/-- One iteration of the per-face loop of `process_frame` (lines 83-127):
a matched face is announced only when its name has no last-recognition
timestamp or the elapsed time strictly exceeds the cooldown, and the
timestamp is written exactly in that case; an unmatched face is always
reported as unknown and leaves the timestamps untouched. -/
def process_frame_step {E L : Type} (g : Gallery E) (dist : E → E → ℚ)
    (tol cooldown now : ℚ) (acc : List (Recognition L) × List (String × ℚ))
    (f : E × L) : List (Recognition L) × List (String × ℚ) :=
  match resolve_match g dist tol f.1 with
  | some (name, rel) =>
    match pyDictGet acc.2 name with
    | none => (acc.1 ++ [knownRecognition name rel f.2], pyDictSet acc.2 name now)
    | some last =>
      if now - last > cooldown then
        (acc.1 ++ [knownRecognition name rel f.2], pyDictSet acc.2 name now)
      else acc
  | none => (acc.1 ++ [unknownRecognition f.2], acc.2)

/-- `FaceRecognitionManager.process_frame`: fold the per-face loop over
the detected faces, threading `last_recognition_time`; returns the
recognition records and the updated timestamp map. -/
def process_frame {E L : Type} (g : Gallery E) (dist : E → E → ℚ)
    (tol cooldown : ℚ) (faces : List (E × L)) (now : ℚ)
    (st : List (String × ℚ)) : List (Recognition L) × List (String × ℚ) :=
  faces.foldl (process_frame_step g dist tol cooldown now) ([], st)

/-- A face is matched when some gallery encoding is within tolerance. -/
def matchedFace {E : Type} (g : Gallery E) (dist : E → E → ℚ) (tol : ℚ) (enc : E) : Bool :=
  (compare_faces g.encodings dist enc tol).contains true

/-- The per-face match of `FaceRecognizer.recognize_faces`
(src/face_recognizer.py lines 81-97): the name at `matches.index(True)`,
the first gallery index within tolerance, or "Unknown". -/
def recognize_face_name {E : Type} (encodings : List E) (names : List String)
    (dist : E → E → ℚ) (tol : ℚ) (enc : E) : String :=
  let ms := compare_faces encodings dist enc tol
  if ms.contains true then
    names.getD (ms.findIdx (fun b => b == true)) ""
  else "Unknown"

/-- The five finger extension flags of `GestureRecognizer.get_finger_states`. -/
structure FingerStates where
  thumb : Bool
  index : Bool
  middle : Bool
  ring : Bool
  pinky : Bool
deriving DecidableEq

/-- A 2D hand landmark, `(x, y)` in image coordinates (y grows downward). -/
structure Landmark where
  x : ℚ
  y : ℚ
deriving DecidableEq

/-- The per-finger test of `get_finger_states` (lines 108-114): a finger
is reported extended exactly when `tip.y < mid.y < bottom.y`. -/
def finger_extended (hand : ℕ → Landmark) (tip mid bottom : ℕ) : Bool :=
  decide ((hand tip).y < (hand mid).y) && decide ((hand mid).y < (hand bottom).y)

/-- `GestureRecognizer.get_finger_states` over the MediaPipe landmark
indices used in the source: thumb 4/3/2, index 8/7/6, middle 12/11/10,
ring 16/15/14, pinky 20/19/18. -/
def get_finger_states (hand : ℕ → Landmark) : FingerStates :=
  ⟨finger_extended hand 4 3 2, finger_extended hand 8 7 6,
   finger_extended hand 12 11 10, finger_extended hand 16 15 14,
   finger_extended hand 20 19 18⟩

/-- Squared Euclidean distance between two landmarks (squaring preserves
the order of distances, so "farther" comparisons are unchanged). -/
def sqDist (a b : Landmark) : ℚ := (a.x - b.x) * (a.x - b.x) + (a.y - b.y) * (a.y - b.y)

/-- Modelled from the spec wording for comparison (refinement check):
"a finger is extended if its tip is farther from the palm than its middle
joint, which in turn is farther than its base joint", with the palm taken
as the wrist landmark (index 0). -/
def finger_extended_spec (hand : ℕ → Landmark) (tip mid bottom : ℕ) : Bool :=
  decide (sqDist (hand tip) (hand 0) > sqDist (hand mid) (hand 0)) &&
    decide (sqDist (hand mid) (hand 0) > sqDist (hand bottom) (hand 0))

/-- Thumbs-up rule (lines 128-129): thumb extended, no other finger. -/
def thumbs_up_rule (fs : FingerStates) : Bool :=
  fs.thumb && !(fs.index || fs.middle || fs.ring || fs.pinky)

/-- Thumbs-down rule (lines 133-134): no finger extended, thumb included. -/
def thumbs_down_rule (fs : FingerStates) : Bool :=
  !fs.thumb && !(fs.index || fs.middle || fs.ring || fs.pinky)

/-- Peace-sign rule (lines 138-139): index and middle extended, ring and
pinky not. -/
def peace_rule (fs : FingerStates) : Bool :=
  fs.index && fs.middle && !(fs.ring || fs.pinky)

/-- Open-palm rule (line 143): all five fingers extended. -/
def open_palm_rule (fs : FingerStates) : Bool :=
  fs.thumb && fs.index && fs.middle && fs.ring && fs.pinky

/-- Pointing rule (lines 147-148): index extended, middle/ring/pinky not. -/
def pointing_rule (fs : FingerStates) : Bool :=
  fs.index && !(fs.middle || fs.ring || fs.pinky)

/-- The static rules of `classify_gesture` in source precedence order. -/
def static_rules : List (String × (FingerStates → Bool)) :=
  [("thumbs_up", thumbs_up_rule), ("thumbs_down", thumbs_down_rule),
   ("peace", peace_rule), ("open_palm", open_palm_rule),
   ("pointing", pointing_rule)]

/-- The labels of all static rules a finger-state vector satisfies, in
precedence order. -/
def static_matches (fs : FingerStates) : List String :=
  (static_rules.filter (fun r => r.2 fs)).map (fun r => r.1)

/-- The static section of `classify_gesture` (lines 127-149): first
matching rule wins. -/
def classify_static (fs : FingerStates) : Option String :=
  if thumbs_up_rule fs then some "thumbs_up"
  else if thumbs_down_rule fs then some "thumbs_down"
  else if peace_rule fs then some "peace"
  else if open_palm_rule fs then some "open_palm"
  else if pointing_rule fs then some "pointing"
  else none

/-- `collections.deque(maxlen=cap)` append: drop from the front once the
capacity is exceeded. -/
def deque_push (cap : ℕ) (l : List ℚ) (x : ℚ) : List ℚ :=
  let l' := l ++ [x]
  l'.drop (l'.length - cap)

/-- `np.var`: population variance (mean of squared deviations). -/
def py_var (l : List ℚ) : ℚ :=
  let n : ℚ := l.length
  let mean := l.sum / n
  (l.map (fun x => (x - mean) * (x - mean))).sum / n

/-- `GestureRecognizer.detect_wave_motion` (lines 158-165): append the
index angle to the rolling history, then report a wave when at least 10
samples are buffered and their variance exceeds 500. -/
def detect_wave_motion (hist : List ℚ) (indexAngle : ℚ) : List ℚ × Bool :=
  let h' := deque_push 30 hist indexAngle
  (h', decide (10 ≤ h'.length) && decide (py_var h' > 500))

/-- `GestureRecognizer.detect_namaste` (lines 167-175): "namaste" when the
absolute difference of the two most recent buffered angles is below 20. -/
def detect_namaste (hist : List ℚ) : Option String :=
  if hist.length < 2 then none
  else
    let recent := hist.drop (hist.length - 2)
    if |recent.getD 0 0 - recent.getD 1 0| < 20 then some "namaste" else none

/-- `GestureRecognizer.classify_gesture` (lines 118-156): wave first (with
its history side effect), then the static rules, then the namaste check
when the history holds at least two samples. -/
def classify_gesture (hist : List ℚ) (indexAngle : ℚ) (fs : FingerStates) :
    List ℚ × Option String :=
  let r := detect_wave_motion hist indexAngle
  if r.2 then (r.1, some "wave")
  else match classify_static fs with
    | some g => (r.1, some g)
    | none => if 2 ≤ r.1.length then (r.1, detect_namaste r.1) else (r.1, none)

/-- The mutable state of `GestureRecognizer` relevant to `detect_gestures`:
`gesture_history`, `last_gesture_time` and `last_detected_gesture`. -/
structure GestureState where
  history : List ℚ
  lastGestureTime : ℚ
  lastDetected : Option String
deriving DecidableEq

/-- The state as `GestureRecognizer.__init__` leaves it at time `t0`:
empty history, `last_gesture_time = t0`, `last_detected_gesture = None`. -/
def initial_gesture_state (t0 : ℚ) : GestureState := ⟨[], t0, none⟩

/-- One hand reported by the hand adapter: the index-fingertip angle (the
only angle `classify_gesture` consumes) and the finger-state vector. -/
def HandInput : Type := ℚ × FingerStates

/-- `GestureRecognizer.detect_gestures` (lines 56-95): emit the
`gesture_stop` sentinel when more than `no_gesture_threshold = 2` seconds
passed since the last non-empty detection and `last_detected_gesture` is
non-null (resetting it to null); otherwise, when hands are present,
refresh `last_gesture_time` and classify each hand in turn, threading the
rolling history. -/
def detect_gestures (st : GestureState) (now : ℚ) (hands : List HandInput) :
    List String × GestureState :=
  if now - st.lastGestureTime > 2 ∧ st.lastDetected ≠ none then
    (["gesture_stop"], { st with lastDetected := none })
  else
    match hands with
    | [] => ([], st)
    | _ :: _ =>
      let r := hands.foldl
        (fun (acc : List String × List ℚ) (hand : HandInput) =>
          let c := classify_gesture acc.2 hand.1 hand.2
          (match c.2 with
           | some s => acc.1 ++ [s]
           | none => acc.1, c.1)) ([], st.history)
      (r.1, { history := r.2, lastGestureTime := now, lastDetected := st.lastDetected })

/-- A surviving object detection as assembled in `ObjectDetector.detect_objects`
(lines 136-142); the bounding box is irrelevant to the properties proved
here and is omitted, the spatial phrase is kept as an opaque string. -/
structure Detection where
  label : String
  location : String
  confidence : ℚ
  priority : String
deriving DecidableEq

/-- The `high` tier labels of `ObjectDetector.priority_objects`. -/
def priority_objects_high : List String :=
  ["person", "car", "truck", "traffic light", "stop sign", "door"]

/-- The `medium` tier labels of `ObjectDetector.priority_objects`. -/
def priority_objects_medium : List String :=
  ["chair", "table", "stairs", "bed", "couch"]

/-- The `low` tier labels of `ObjectDetector.priority_objects`. -/
def priority_objects_low : List String :=
  ["cup", "bottle", "book", "cell phone"]

/-- `ObjectDetector.get_object_priority` (lines 152-162). -/
def get_object_priority (label : String) : String :=
  if priority_objects_high.contains label then "high"
  else if priority_objects_medium.contains label then "medium"
  else if priority_objects_low.contains label then "low"
  else "normal"

/-- Python string comparison on code-point lists (lexicographic). -/
def pyStrLtAux : List Char → List Char → Bool
  | [], [] => false
  | [], _ :: _ => true
  | _ :: _, [] => false
  | a :: as, b :: bs =>
    if a.toNat < b.toNat then true
    else if b.toNat < a.toNat then false
    else pyStrLtAux as bs

/-- Python `a < b` on strings. -/
def pyStrLt (a b : String) : Bool := pyStrLtAux a.data b.data

/-- Python `a <= b` on strings. -/
def pyStrLe (a b : String) : Bool := !(pyStrLt b a)

/-- Insert an element into a list sorted by a string key, before the first
element with a key not smaller than its own; combined with `pySortByKey`
this reproduces Python's stable `list.sort(key=...)`. -/
def insertSorted {α : Type} (key : α → String) (x : α) : List α → List α
  | [] => [x]
  | y :: ys => if pyStrLe (key x) (key y) then x :: y :: ys else y :: insertSorted key x ys

/-- Stable sort by a string key: the model of `detections.sort(key=lambda
x: x["priority"])` (object_detector.py line 195). -/
def pySortByKey {α : Type} (key : α → String) : List α → List α
  | [] => []
  | x :: xs => insertSorted key x (pySortByKey key xs)

/-- Python `sep.join(parts)`. -/
def pyJoin (sep : String) : List String → String
  | [] => ""
  | x :: xs => xs.foldl (fun acc y => acc ++ sep ++ y) x

/-- The phrase contributed by one detection to a clause: `"{label} {location}"`. -/
def detection_phrase (d : Detection) : String := d.label ++ " " ++ d.location

/-- `ObjectDetector.generate_description` (lines 186-215): sort by the
priority string, emit an "Important" clause for the high tier when
non-empty, then an "Also seen" clause for everything else when non-empty,
joined by ". ". -/
def generate_description (detections : List Detection) : String :=
  if detections.isEmpty then "No objects detected"
  else
    let sorted := pySortByKey (fun d => d.priority) detections
    let high := sorted.filter (fun d => d.priority == "high")
    let others := sorted.filter (fun d => !(d.priority == "high"))
    let clauses :=
      (if high.isEmpty then []
       else ["Important: " ++ pyJoin ", " (high.map detection_phrase)]) ++
      (if others.isEmpty then []
       else ["Also seen: " ++ pyJoin ", " (others.map detection_phrase)])
    pyJoin ". " clauses

/-- The `current_detections` dict of `detect_objects` (lines 128-145):
keyed by label, so a later surviving detection of the same label
overwrites the earlier one. -/
def build_current_detections (survivors : List Detection) : List (String × Detection) :=
  survivors.foldl (fun d det => pyDictSet d det.label det) []

/-- The per-label tracking history: label to list of (timestamp, detection). -/
def TrackingHistory : Type := List (String × List (ℚ × Detection))

/-- `ObjectDetector.update_tracking` (lines 164-184): append the frame's
current detection for each label, then drop entries older than 5 seconds
and remove labels whose history became empty. -/
def update_tracking (now : ℚ) (current : List (String × Detection))
    (hist : TrackingHistory) : TrackingHistory :=
  let appended := current.foldl
    (fun h (p : String × Detection) =>
      pyDictSet h p.1 (((pyDictGet h p.1).getD []) ++ [(now, p.2)])) hist
  (appended.map (fun p => (p.1, p.2.filter (fun e => decide (e.1 > now - 5))))).filter
    (fun p => !p.2.isEmpty)

/-- The tail of `ObjectDetector.detect_objects` (lines 127-150) after
non-maximum suppression: record the surviving detections, update the
tracking history, and return `generate_description(detections)` - a
string, not the detection list. -/
def detect_objects_post (survivors : List Detection) (now : ℚ)
    (hist : TrackingHistory) : String × TrackingHistory :=
  (generate_description survivors, update_tracking now (build_current_detections survivors) hist)

/-- The first conjunct of `IntegratedSystem.check_important_changes`
(line 152) as executed on the value the monitoring loop actually passes:
`detect_objects` returns a description string, and iterating a Python
string yields one-character strings, so the first evaluation of
`obj["priority"]` raises `TypeError` unless the string is empty (when
`any` over it is `False`). -/
def py_any_priority_high (objects : String) : Except Unit Bool :=
  match objects.data with
  | [] => Except.ok false
  | _ :: _ => Except.error ()

/-- `IntegratedSystem.check_important_changes` (lines 149-163) applied to
the string `continuous_monitoring` obtains from `detect_objects`
(line 130): the face and gesture tests run only if the object test
returned without raising. -/
def check_important_changes_dyn {L : Type} (objects : String)
    (faces : List (Recognition L)) (gestures : List String) : Except Unit Bool :=
  match py_any_priority_high objects with
  | Except.error e => Except.error e
  | Except.ok true => Except.ok true
  | Except.ok false =>
    if faces.any (fun f => f.name == "Unknown") then Except.ok true
    else if gestures.any (fun s => s == "wave" || s == "help") then Except.ok true
    else Except.ok false

/-- Claim C5: the trigger conditions of the five static gesture rules
(thumbs-up, thumbs-down, peace-sign, open-palm, pointing), evaluated over
the 5-boolean finger-state vector in the fixed precedence order of
`classify_gesture`, are pairwise disjoint, and for every finger-state
vector the static classifier returns exactly the first (hence the only)
matching rule, or none. -/
theorem C5_static_rules_disjoint :
    ∀ t i m r p : Bool,
      ¬(thumbs_up_rule ⟨t, i, m, r, p⟩ = true ∧ thumbs_down_rule ⟨t, i, m, r, p⟩ = true) ∧
      ¬(thumbs_up_rule ⟨t, i, m, r, p⟩ = true ∧ peace_rule ⟨t, i, m, r, p⟩ = true) ∧
      ¬(thumbs_up_rule ⟨t, i, m, r, p⟩ = true ∧ open_palm_rule ⟨t, i, m, r, p⟩ = true) ∧
      ¬(thumbs_up_rule ⟨t, i, m, r, p⟩ = true ∧ pointing_rule ⟨t, i, m, r, p⟩ = true) ∧
      ¬(thumbs_down_rule ⟨t, i, m, r, p⟩ = true ∧ peace_rule ⟨t, i, m, r, p⟩ = true) ∧
      ¬(thumbs_down_rule ⟨t, i, m, r, p⟩ = true ∧ open_palm_rule ⟨t, i, m, r, p⟩ = true) ∧
      ¬(thumbs_down_rule ⟨t, i, m, r, p⟩ = true ∧ pointing_rule ⟨t, i, m, r, p⟩ = true) ∧
      ¬(peace_rule ⟨t, i, m, r, p⟩ = true ∧ open_palm_rule ⟨t, i, m, r, p⟩ = true) ∧
      ¬(peace_rule ⟨t, i, m, r, p⟩ = true ∧ pointing_rule ⟨t, i, m, r, p⟩ = true) ∧
      ¬(open_palm_rule ⟨t, i, m, r, p⟩ = true ∧ pointing_rule ⟨t, i, m, r, p⟩ = true) ∧
      (static_matches ⟨t, i, m, r, p⟩).length ≤ 1 ∧
      classify_static ⟨t, i, m, r, p⟩ = (static_matches ⟨t, i, m, r, p⟩).head? := by
  decide

/-- Claim C9, counterexample: a straight index finger pointing downward
(wrist at the origin, base joint above middle joint above tip in image
coordinates).  Each joint is strictly farther from the palm than the
previous one, so the spec's distance-from-palm reading calls the finger
extended, but `get_finger_states` compares raw y-coordinates and reports
it not extended. -/
theorem C9_extended_spec_counterexample :
    (get_finger_states (fun n =>
        if n = 8 then ⟨0, 3⟩ else if n = 7 then ⟨0, 2⟩
        else if n = 6 then ⟨0, 1⟩ else ⟨0, 0⟩)).index = false ∧
    finger_extended_spec (fun n =>
        if n = 8 then ⟨0, 3⟩ else if n = 7 then ⟨0, 2⟩
        else if n = 6 then ⟨0, 1⟩ else ⟨0, 0⟩) 8 7 6 = true := by
  norm_num [get_finger_states, finger_extended, finger_extended_spec, sqDist]

/-- Claim C9 as amended: `get_finger_states` marks a finger as extended
exactly when its tip's y-coordinate is strictly smaller than its middle
joint's, which is strictly smaller than its base joint's (tip above
middle above base in image coordinates, y growing downward) - not by
comparing distances from the palm. -/
theorem C9_extended_y_chain_amended (hand : ℕ → Landmark) :
    ((get_finger_states hand).thumb = true ↔
      ((hand 4).y < (hand 3).y ∧ (hand 3).y < (hand 2).y)) ∧
    ((get_finger_states hand).index = true ↔
      ((hand 8).y < (hand 7).y ∧ (hand 7).y < (hand 6).y)) ∧
    ((get_finger_states hand).middle = true ↔
      ((hand 12).y < (hand 11).y ∧ (hand 11).y < (hand 10).y)) ∧
    ((get_finger_states hand).ring = true ↔
      ((hand 16).y < (hand 15).y ∧ (hand 15).y < (hand 14).y)) ∧
    ((get_finger_states hand).pinky = true ↔
      ((hand 20).y < (hand 19).y ∧ (hand 19).y < (hand 18).y)) := by
  simp [get_finger_states, finger_extended]

/-- Claim C4: the failing sequence.  A thumbs-up hand is reported at time
0 (a non-null gesture), then 3 seconds - more than the 2-second
inactivity threshold - pass with no hand detected; the next
`detect_gestures` call returns `[]`, not the `gesture_stop` sentinel,
because `last_detected_gesture` is never assigned a non-null value
anywhere in the code, so the auto-stop guard can never fire. -/
theorem C4_gesture_stop_never_emitted :
    (detect_gestures (initial_gesture_state 0) 0
        [(((0 : ℚ), ⟨true, false, false, false, false⟩) : HandInput)]).1 = ["thumbs_up"] ∧
    (detect_gestures
        (detect_gestures (initial_gesture_state 0) 0
          [(((0 : ℚ), ⟨true, false, false, false, false⟩) : HandInput)]).2
        3 []).1 = [] := by
  norm_num [detect_gestures, initial_gesture_state, classify_gesture, classify_static,
    detect_wave_motion, detect_namaste, deque_push, py_var, thumbs_up_rule,
    thumbs_down_rule, peace_rule, open_palm_rule, pointing_rule]

/-- Lookup after a Python dict update: the written key reads back the new
value, every other key is unaffected. -/
theorem pyDictGet_set {α : Type} (d : List (String × α)) (k n : String) (v : α) :
    pyDictGet (pyDictSet d k v) n = if k == n then some v else pyDictGet d n := by
  induction d with
  | nil =>
    cases hkn : k == n <;>
      simp [pyDictGet, pyDictSet, List.find?, hkn]
  | cons p rest ih =>
    obtain ⟨k', v'⟩ := p
    cases hk'k : k' == k
    · have hne : k' ≠ k := by
        intro hh; simp [hh] at hk'k
      cases hk'n : k' == n
      · have hset : pyDictSet ((k', v') :: rest) k v = (k', v') :: pyDictSet rest k v := by
          simp [pyDictSet, hk'k]
        rw [hset]
        have h1 : pyDictGet ((k', v') :: pyDictSet rest k v) n
            = pyDictGet (pyDictSet rest k v) n := by
          simp [pyDictGet, List.find?, hk'n]
        have h2 : pyDictGet ((k', v') :: rest) n = pyDictGet rest n := by
          simp [pyDictGet, List.find?, hk'n]
        rw [h1, h2, ih]
      · have hn : k' = n := eq_of_beq hk'n
        have hkn : (k == n) = false := by
          have : k ≠ n := fun hh => hne (by rw [hn, hh])
          simpa using this
        simp [pyDictGet, pyDictSet, List.find?, hk'k, hk'n, hkn]
    · have hkk' : k = k' := (eq_of_beq hk'k).symm
      subst hkk'
      cases hk'n : k == n <;>
        simp [pyDictGet, pyDictSet, List.find?, hk'k, hk'n]

/-- The running `np.argmin` scan returns either the incoming best index
(when no later element is strictly smaller) or the position of a new
minimum inside the remaining list; in both cases the value at the result
is a lower bound of the scanned values. -/
theorem np_argminAux_spec (xs : List ℚ) : ∀ (i best : ℕ) (bv : ℚ),
    (np_argminAux xs i best bv = best ∧ ∀ x ∈ xs, bv ≤ x) ∨
    (∃ k, k < xs.length ∧ np_argminAux xs i best bv = i + k ∧
      xs.getD k 0 ≤ bv ∧ ∀ x ∈ xs, xs.getD k 0 ≤ x) := by
  induction xs with
  | nil => intro i best bv; exact Or.inl ⟨rfl, by simp⟩
  | cons x xs ih =>
    intro i best bv
    by_cases h : x < bv
    · have hstep : np_argminAux (x :: xs) i best bv = np_argminAux xs (i + 1) i x := by
        simp [np_argminAux, h]
      rcases ih (i + 1) i x with ⟨heq, hall⟩ | ⟨k, hk, heq, hle, hall⟩
      · refine Or.inr ⟨0, by simp, ?_, by simpa using le_of_lt h, ?_⟩
        · rw [hstep, heq]; omega
        · intro y hy
          rcases List.mem_cons.mp hy with rfl | hy'
          · simp
          · simpa using hall y hy'
      · refine Or.inr ⟨k + 1, ?_, ?_, ?_, ?_⟩
        · simp only [List.length_cons]; omega
        · rw [hstep, heq]; omega
        · simp only [List.getD_cons_succ]
          exact le_trans hle (le_of_lt h)
        · intro y hy
          simp only [List.getD_cons_succ]
          rcases List.mem_cons.mp hy with rfl | hy'
          · exact hle
          · exact hall y hy'
    · have hstep : np_argminAux (x :: xs) i best bv = np_argminAux xs (i + 1) best bv := by
        simp [np_argminAux, h]
      rcases ih (i + 1) best bv with ⟨heq, hall⟩ | ⟨k, hk, heq, hle, hall⟩
      · refine Or.inl ⟨by rw [hstep, heq], ?_⟩
        intro y hy
        rcases List.mem_cons.mp hy with rfl | hy'
        · exact le_of_not_lt h
        · exact hall y hy'
      · refine Or.inr ⟨k + 1, ?_, ?_, ?_, ?_⟩
        · simp only [List.length_cons]; omega
        · rw [hstep, heq]; omega
        · simp only [List.getD_cons_succ]; exact hle
        · intro y hy
          simp only [List.getD_cons_succ]
          rcases List.mem_cons.mp hy with rfl | hy'
          · exact le_trans hle (le_of_not_lt h)
          · exact hall y hy'

/-- `np.argmin` of a non-empty list is a valid index whose value is a
lower bound of every element. -/
theorem np_argmin_spec (l : List ℚ) (h : l ≠ []) :
    np_argmin l < l.length ∧ ∀ j, j < l.length → l.getD (np_argmin l) 0 ≤ l.getD j 0 := by
  match l with
  | [] => exact absurd rfl h
  | x :: xs =>
    rcases np_argminAux_spec xs 1 0 x with ⟨heq, hall⟩ | ⟨k, hk, heq, hle, hall⟩
    · constructor
      · simp [np_argmin, heq]
      · intro j hj
        simp only [np_argmin, heq]
        match j with
        | 0 => simp
        | j + 1 =>
          simp only [List.getD_cons_zero, List.getD_cons_succ]
          have hj' : j < xs.length := by simpa using hj
          have hmem : xs.getD j 0 ∈ xs := by
            rw [List.getD_eq_getElem _ _ hj']
            exact List.getElem_mem hj'
          exact hall _ hmem
    · constructor
      · simp only [np_argmin, heq, List.length_cons]; omega
      · intro j hj
        simp only [np_argmin, heq]
        have h1k : 1 + k = k + 1 := by omega
        rw [h1k]
        simp only [List.getD_cons_succ]
        match j with
        | 0 => simpa using hle
        | j + 1 =>
          simp only [List.getD_cons_succ]
          have hj' : j < xs.length := by simpa using hj
          have hmem : xs.getD j 0 ∈ xs := by
            rw [List.getD_eq_getElem _ _ hj']
            exact List.getElem_mem hj'
          exact hall _ hmem

/-- Claim C1: once a name was announced at time `T` (so its last-spoken
timestamp reads `T`), a `process_frame` call resolving a face to the same
name strictly before `T + cooldown` produces no recognition record and
leaves the timestamp map untouched, while a call strictly after
`T + cooldown` produces the announcement record and rewrites the
timestamp to the new call time - so the per-name timestamp is updated
exactly when the name is actually announced. -/
theorem C1_announcement_cooldown {E L : Type} (g : Gallery E) (dist : E → E → ℚ)
    (tol cooldown T T2 : ℚ) (f : E × L) (st : List (String × ℚ)) (name rel : String)
    (hres : resolve_match g dist tol f.1 = some (name, rel))
    (hst : pyDictGet st name = some T) :
    (T2 < T + cooldown → process_frame g dist tol cooldown [f] T2 st = ([], st)) ∧
    (T2 > T + cooldown →
      process_frame g dist tol cooldown [f] T2 st =
        ([knownRecognition name rel f.2], pyDictSet st name T2)) := by
  constructor
  · intro h
    have hng : ¬(T2 - T > cooldown) := by linarith
    simp [process_frame, process_frame_step, hres, hst, hng]
  · intro h
    have hg : T2 - T > cooldown := by linarith
    simp [process_frame, process_frame_step, hres, hst, hg]

/-- Witness for C1: a one-entry gallery ("Asha", "sister"), matched at
distance 0 under tolerance 1, last announced at time 10 with cooldown 5;
a repeat at time 12 is suppressed without touching the timestamp, a
repeat at time 16 is announced and moves the timestamp to 16. -/
theorem C1_announcement_cooldown_witness :
    resolve_match (⟨[(0 : ℚ)], ["Asha"], ["sister"]⟩ : Gallery ℚ)
        (fun a b => |a - b|) 1 0 = some ("Asha", "sister") ∧
    pyDictGet [("Asha", (10 : ℚ))] "Asha" = some 10 ∧
    process_frame (⟨[(0 : ℚ)], ["Asha"], ["sister"]⟩ : Gallery ℚ) (fun a b => |a - b|)
        1 5 [((0 : ℚ), (0 : ℕ))] 12 [("Asha", (10 : ℚ))] = ([], [("Asha", (10 : ℚ))]) ∧
    process_frame (⟨[(0 : ℚ)], ["Asha"], ["sister"]⟩ : Gallery ℚ) (fun a b => |a - b|)
        1 5 [((0 : ℚ), (0 : ℕ))] 16 [("Asha", (10 : ℚ))] =
      ([knownRecognition "Asha" "sister" 0], pyDictSet [("Asha", (10 : ℚ))] "Asha" 16) := by
  have hres : resolve_match (⟨[(0 : ℚ)], ["Asha"], ["sister"]⟩ : Gallery ℚ)
      (fun a b => |a - b|) 1 0 = some ("Asha", "sister") := by
    norm_num [resolve_match, compare_faces, face_distances, np_argmin, np_argminAux]
  have hst : pyDictGet [("Asha", (10 : ℚ))] "Asha" = some 10 := by
    simp [pyDictGet, List.find?]
  refine ⟨hres, hst, ?_, ?_⟩
  · exact (C1_announcement_cooldown _ _ 1 5 10 12 ((0 : ℚ), (0 : ℕ)) _ "Asha" "sister"
      hres hst).1 (by norm_num)
  · exact (C1_announcement_cooldown _ _ 1 5 10 16 ((0 : ℚ), (0 : ℕ)) _ "Asha" "sister"
      hres hst).2 (by norm_num)

/-- Folding the per-face loop over any face list with the empty gallery
reports every face as unknown and leaves the timestamp map unchanged. -/
theorem process_frame_fold_empty_gallery {E L : Type} (dist : E → E → ℚ)
    (tol cooldown now : ℚ) :
    ∀ (faces : List (E × L)) (recs : List (Recognition L)) (st : List (String × ℚ)),
      faces.foldl (process_frame_step (⟨[], [], []⟩ : Gallery E) dist tol cooldown now)
          (recs, st) =
        (recs ++ faces.map (fun f => unknownRecognition f.2), st) := by
  intro faces
  induction faces with
  | nil => intro recs st; simp
  | cons f fs ih =>
    intro recs st
    have hres : resolve_match (⟨[], [], []⟩ : Gallery E) dist tol f.1 = none := by
      simp [resolve_match, compare_faces]
    simp [List.foldl_cons, process_frame_step, hres, ih]

/-- Claim C8: a missing gallery file degrades to the empty gallery
(empty encodings, names and relations) without raising, and with that
gallery every `process_frame` call still runs, classifying every detected
face as unknown and leaving the timestamp state unchanged. -/
theorem C8_missing_gallery_degrades {E L : Type} (dist : E → E → ℚ)
    (tol cooldown now : ℚ) (faces : List (E × L)) (st : List (String × ℚ)) :
    load_face_data (E := E) none = ⟨[], [], []⟩ ∧
    process_frame (load_face_data none) dist tol cooldown faces now st =
      (faces.map (fun f => unknownRecognition f.2), st) := by
  refine ⟨rfl, ?_⟩
  simpa [process_frame, load_face_data] using
    process_frame_fold_empty_gallery dist tol cooldown now faces [] st

/-- `resolve_match` returns `none` exactly on unmatched faces. -/
theorem resolve_match_eq_none_iff {E : Type} (g : Gallery E) (dist : E → E → ℚ)
    (tol : ℚ) (enc : E) :
    resolve_match g dist tol enc = none ↔ matchedFace g dist tol enc = false := by
  by_cases hc : (compare_faces g.encodings dist enc tol).contains true <;>
    simp [resolve_match, matchedFace, hc]

/-- When the gallery's parallel lists agree in length, a resolved name is
one of the gallery names (the `np.argmin` index is in range). -/
theorem resolve_match_name_mem {E : Type} (g : Gallery E) (dist : E → E → ℚ)
    (tol : ℚ) (enc : E) (name rel : String)
    (hlen : g.names.length = g.encodings.length)
    (h : resolve_match g dist tol enc = some (name, rel)) : name ∈ g.names := by
  unfold resolve_match at h
  split at h
  case isTrue hc =>
    simp only [Option.some.injEq, Prod.mk.injEq] at h
    have henc : g.encodings ≠ [] := by
      intro he
      rw [he] at hc
      simp [compare_faces] at hc
    have hdne : face_distances g.encodings dist enc ≠ [] := by
      simpa [face_distances] using henc
    have hb := (np_argmin_spec _ hdne).1
    have hlen2 : (face_distances g.encodings dist enc).length = g.encodings.length := by
      simp [face_distances]
    have hidx : np_argmin (face_distances g.encodings dist enc) < g.names.length := by
      rw [hlen, ← hlen2]
      exact hb
    rw [← h.1, List.getD_eq_getElem _ _ hidx]
    exact List.getElem_mem hidx
  case isFalse hc => cases h

/-- Folding the per-face loop: the unknown records in the output are
exactly one record per unmatched face, in face order, independent of the
timestamp state. -/
theorem process_frame_fold_filter_unknown {E L : Type} (g : Gallery E)
    (dist : E → E → ℚ) (tol cooldown now : ℚ)
    (hU : "Unknown" ∉ g.names) (hlen : g.names.length = g.encodings.length) :
    ∀ (faces : List (E × L)) (recs : List (Recognition L)) (st : List (String × ℚ)),
      ((faces.foldl (process_frame_step g dist tol cooldown now) (recs, st)).1.filter
          (fun r => r.name == "Unknown"))
        = recs.filter (fun r => r.name == "Unknown")
          ++ (faces.filter (fun f => !(matchedFace g dist tol f.1))).map
              (fun f => unknownRecognition f.2) := by
  intro faces
  induction faces with
  | nil => intro recs st; simp
  | cons f fs ih =>
    intro recs st
    rw [List.foldl_cons]
    cases hres : resolve_match g dist tol f.1 with
    | none =>
      have hm : matchedFace g dist tol f.1 = false :=
        (resolve_match_eq_none_iff g dist tol f.1).mp hres
      have hstep : process_frame_step g dist tol cooldown now (recs, st) f
          = (recs ++ [unknownRecognition f.2], st) := by
        simp [process_frame_step, hres]
      rw [hstep, ih]
      simp [List.filter_append, unknownRecognition, hm]
    | some pair =>
      obtain ⟨name, rel⟩ := pair
      have hm : matchedFace g dist tol f.1 = true := by
        by_cases hf : matchedFace g dist tol f.1 = true
        · exact hf
        · have hf' : matchedFace g dist tol f.1 = false := by simpa using hf
          have hcontra : (none : Option (String × String)) = some (name, rel) := by
            rw [← (resolve_match_eq_none_iff g dist tol f.1).mpr hf']
            exact hres
          cases hcontra
      have hname : name ∈ g.names := resolve_match_name_mem g dist tol f.1 name rel hlen hres
      have hnameU : (name == "Unknown") = false := by
        have : name ≠ "Unknown" := fun hh => hU (hh ▸ hname)
        simpa using this
      cases hget : pyDictGet st name with
      | none =>
        have hstep : process_frame_step g dist tol cooldown now (recs, st) f
            = (recs ++ [knownRecognition name rel f.2], pyDictSet st name now) := by
          simp [process_frame_step, hres, hget]
        rw [hstep, ih]
        simp [List.filter_append, knownRecognition, hnameU, hm]
      | some last =>
        by_cases ht : now - last > cooldown
        · have hstep : process_frame_step g dist tol cooldown now (recs, st) f
              = (recs ++ [knownRecognition name rel f.2], pyDictSet st name now) := by
            simp [process_frame_step, hres, hget, ht]
          rw [hstep, ih]
          simp [List.filter_append, knownRecognition, hnameU, hm]
        · have hstep : process_frame_step g dist tol cooldown now (recs, st) f
              = (recs, st) := by
            simp [process_frame_step, hres, hget, ht]
          rw [hstep, ih]
          simp [hm]

/-- Folding the per-face loop can change the timestamp map only at keys
that are gallery names; in particular unmatched detections never touch
it. -/
theorem process_frame_fold_state_names {E L : Type} (g : Gallery E)
    (dist : E → E → ℚ) (tol cooldown now : ℚ)
    (hlen : g.names.length = g.encodings.length) :
    ∀ (faces : List (E × L)) (recs : List (Recognition L)) (st : List (String × ℚ))
      (n : String),
      pyDictGet ((faces.foldl (process_frame_step g dist tol cooldown now) (recs, st)).2) n
          ≠ pyDictGet st n → n ∈ g.names := by
  intro faces
  induction faces with
  | nil => intro recs st n h; simp at h
  | cons f fs ih =>
    intro recs st n h
    rw [List.foldl_cons] at h
    have hkey : ∀ (recs' : List (Recognition L)) (name : String),
        process_frame_step g dist tol cooldown now (recs, st) f = (recs', pyDictSet st name now) →
        name ∈ g.names →
        pyDictGet ((fs.foldl (process_frame_step g dist tol cooldown now)
            (recs', pyDictSet st name now)).2) n ≠ pyDictGet st n → n ∈ g.names := by
      intro recs' name _ hmem hne
      by_cases heq2 : pyDictGet ((fs.foldl (process_frame_step g dist tol cooldown now)
          (recs', pyDictSet st name now)).2) n = pyDictGet (pyDictSet st name now) n
      · have hdiff : pyDictGet (pyDictSet st name now) n ≠ pyDictGet st n := by
          rw [← heq2]; exact hne
        rw [pyDictGet_set] at hdiff
        by_cases hb : name = n
        · exact hb ▸ hmem
        · simp [hb] at hdiff
      · exact ih recs' (pyDictSet st name now) n heq2
    cases hres : resolve_match g dist tol f.1 with
    | none =>
      have hstep : process_frame_step g dist tol cooldown now (recs, st) f
          = (recs ++ [unknownRecognition f.2], st) := by
        simp [process_frame_step, hres]
      rw [hstep] at h
      exact ih _ _ _ h
    | some pair =>
      obtain ⟨name, rel⟩ := pair
      have hmem : name ∈ g.names := resolve_match_name_mem g dist tol f.1 name rel hlen hres
      cases hget : pyDictGet st name with
      | none =>
        have hstep : process_frame_step g dist tol cooldown now (recs, st) f
            = (recs ++ [knownRecognition name rel f.2], pyDictSet st name now) := by
          simp [process_frame_step, hres, hget]
        rw [hstep] at h
        exact hkey _ name hstep hmem h
      | some last =>
        by_cases ht : now - last > cooldown
        · have hstep : process_frame_step g dist tol cooldown now (recs, st) f
              = (recs ++ [knownRecognition name rel f.2], pyDictSet st name now) := by
            simp [process_frame_step, hres, hget, ht]
          rw [hstep] at h
          exact hkey _ name hstep hmem h
        · have hstep : process_frame_step g dist tol cooldown now (recs, st) f
              = (recs, st) := by
            simp [process_frame_step, hres, hget, ht]
          rw [hstep] at h
          exact ih _ _ _ h

/-- Claim C2: in every `process_frame` call, the unknown-person records
in the output are exactly one per detected face whose encoding matches no
gallery entry within the threshold, in detection order and independent of
the timestamp state (so two immediately successive calls both report
them); and the last-spoken timestamp map can change only at gallery
names, so an unmatched detection never updates any timestamp.  The
hypotheses say the gallery does not itself contain the reserved name
"Unknown" and its parallel lists agree in length. -/
theorem C2_unknown_never_throttled {E L : Type} (g : Gallery E)
    (dist : E → E → ℚ) (tol cooldown : ℚ) (faces : List (E × L)) (now : ℚ)
    (st : List (String × ℚ))
    (hU : "Unknown" ∉ g.names) (hlen : g.names.length = g.encodings.length) :
    ((process_frame g dist tol cooldown faces now st).1.filter
        (fun r => r.name == "Unknown"))
      = (faces.filter (fun f => !(matchedFace g dist tol f.1))).map
          (fun f => unknownRecognition f.2) ∧
    ∀ n, pyDictGet (process_frame g dist tol cooldown faces now st).2 n
        ≠ pyDictGet st n → n ∈ g.names := by
  constructor
  · simpa [process_frame] using
      process_frame_fold_filter_unknown g dist tol cooldown now hU hlen faces [] st
  · intro n
    exact process_frame_fold_state_names g dist tol cooldown now hlen faces [] st n

/-- Witness for C2: a one-entry gallery and two faces at distances 5 and
7 under tolerance 1 - both unmatched - produce exactly two unknown
records and leave the timestamp map untouched. -/
theorem C2_unknown_never_throttled_witness :
    ("Unknown" ∉ (["Asha"] : List String)) ∧
    (["Asha"] : List String).length = [(0 : ℚ)].length ∧
    ((process_frame (⟨[(0 : ℚ)], ["Asha"], ["sister"]⟩ : Gallery ℚ) (fun a b => |a - b|)
        1 5 [((5 : ℚ), (0 : ℕ)), ((7 : ℚ), (1 : ℕ))] 20 [("Asha", (10 : ℚ))]).1.filter
        (fun r => r.name == "Unknown"))
      = ([((5 : ℚ), (0 : ℕ)), ((7 : ℚ), (1 : ℕ))].filter
          (fun f => !(matchedFace (⟨[(0 : ℚ)], ["Asha"], ["sister"]⟩ : Gallery ℚ)
            (fun a b => |a - b|) 1 f.1))).map (fun f => unknownRecognition f.2) ∧
    ∀ n, pyDictGet (process_frame (⟨[(0 : ℚ)], ["Asha"], ["sister"]⟩ : Gallery ℚ)
        (fun a b => |a - b|) 1 5 [((5 : ℚ), (0 : ℕ)), ((7 : ℚ), (1 : ℕ))] 20
        [("Asha", (10 : ℚ))]).2 n ≠ pyDictGet [("Asha", (10 : ℚ))] n →
      n ∈ (⟨[(0 : ℚ)], ["Asha"], ["sister"]⟩ : Gallery ℚ).names := by
  have hU : "Unknown" ∉ (["Asha"] : List String) := by simp
  have hlen : (["Asha"] : List String).length = [(0 : ℚ)].length := by simp
  exact ⟨hU, hlen,
    C2_unknown_never_throttled (⟨[(0 : ℚ)], ["Asha"], ["sister"]⟩ : Gallery ℚ)
      (fun a b => |a - b|) 1 5 [((5 : ℚ), (0 : ℕ)), ((7 : ℚ), (1 : ℕ))] 20
      [("Asha", (10 : ℚ))] hU hlen⟩

/-- Claim C7, counterexample: gallery encodings at distances 1 and 0 from
the probe, both within tolerance 1.  `recognize_faces`
(src/face_recognizer.py) resolves the face via `matches.index(True)` to
"Alice", the first candidate within the threshold, while the minimum
embedding distance is attained by "Bob" (also what
`process_frame` resolves to via `np.argmin`) - so the resolver of
`recognize_faces` does not report the minimum-distance candidate. -/
theorem C7_first_match_not_argmin_counterexample :
    recognize_face_name [(1 : ℚ), 0] ["Alice", "Bob"] (fun a b => |a - b|) 1 0 = "Alice" ∧
    (["Alice", "Bob"] : List String).getD
        (np_argmin (face_distances [(1 : ℚ), 0] (fun a b => |a - b|) 0)) "" = "Bob" ∧
    resolve_match (⟨[(1 : ℚ), 0], ["Alice", "Bob"], ["friend", "colleague"]⟩ : Gallery ℚ)
        (fun a b => |a - b|) 1 0 = some ("Bob", "colleague") ∧
    "Alice" ≠ "Bob" := by
  refine ⟨?_, ?_, ?_, by decide⟩
  · norm_num [recognize_face_name, compare_faces, List.findIdx_cons]
  · norm_num [face_distances, np_argmin, np_argminAux]
  · norm_num [resolve_match, compare_faces, face_distances, np_argmin, np_argminAux]

/-- Elementwise reading of `compare_faces` against `face_distances`. -/
theorem compare_faces_getD {E : Type} (encodings : List E) (dist : E → E → ℚ)
    (enc : E) (tol : ℚ) (j : ℕ) (hj : j < encodings.length) :
    (compare_faces encodings dist enc tol).getD j false
      = decide ((face_distances encodings dist enc).getD j 0 ≤ tol) := by
  have hj1 : j < (compare_faces encodings dist enc tol).length := by
    simpa [compare_faces] using hj
  have hj2 : j < (face_distances encodings dist enc).length := by
    simpa [face_distances] using hj
  rw [List.getD_eq_getElem _ _ hj1, List.getD_eq_getElem _ _ hj2]
  simp [compare_faces, face_distances]

/-- Claim C7 as amended: on a face matched by at least one gallery entry
within the threshold, `process_frame` resolves to exactly one name - the
one at the `np.argmin` index, whose distance is a lower bound of all
gallery distances - while `recognize_faces` also reports exactly one
name, but the one at the first index within the threshold (every earlier
candidate being outside it), which need not be the minimum-distance
candidate. -/
theorem C7_single_best_match_amended {E : Type} (g : Gallery E) (dist : E → E → ℚ)
    (tol : ℚ) (enc : E)
    (hm : matchedFace g dist tol enc = true)
    (hlen : g.names.length = g.encodings.length) :
    resolve_match g dist tol enc =
      some (g.names.getD (np_argmin (face_distances g.encodings dist enc)) "",
            g.relations.getD (np_argmin (face_distances g.encodings dist enc)) "") ∧
    (∀ j, j < (face_distances g.encodings dist enc).length →
      (face_distances g.encodings dist enc).getD
          (np_argmin (face_distances g.encodings dist enc)) 0
        ≤ (face_distances g.encodings dist enc).getD j 0) ∧
    ((compare_faces g.encodings dist enc tol).findIdx (fun b => b == true)
        < g.encodings.length) ∧
    (face_distances g.encodings dist enc).getD
        ((compare_faces g.encodings dist enc tol).findIdx (fun b => b == true)) 0 ≤ tol ∧
    (∀ i, i < (compare_faces g.encodings dist enc tol).findIdx (fun b => b == true) →
      ¬((face_distances g.encodings dist enc).getD i 0 ≤ tol)) ∧
    recognize_face_name g.encodings g.names dist tol enc =
      g.names.getD ((compare_faces g.encodings dist enc tol).findIdx (fun b => b == true)) "" := by
  have hc : (compare_faces g.encodings dist enc tol).contains true = true := hm
  have hmem : true ∈ compare_faces g.encodings dist enc tol := by
    simpa using hc
  have hex : ∃ x ∈ compare_faces g.encodings dist enc tol, (fun b => b == true) x :=
    ⟨true, hmem, by simp⟩
  have hjlt : (compare_faces g.encodings dist enc tol).findIdx (fun b => b == true)
      < (compare_faces g.encodings dist enc tol).length :=
    List.findIdx_lt_length.mpr hex
  have hmslen : (compare_faces g.encodings dist enc tol).length = g.encodings.length := by
    simp [compare_faces]
  have hjenc : (compare_faces g.encodings dist enc tol).findIdx (fun b => b == true)
      < g.encodings.length := hmslen ▸ hjlt
  have hdlen : (face_distances g.encodings dist enc).length = g.encodings.length := by
    simp [face_distances]
  have henc : g.encodings ≠ [] := by
    intro he
    rw [he] at hc
    simp [compare_faces] at hc
  have hdne : face_distances g.encodings dist enc ≠ [] := by
    simpa [face_distances] using henc
  refine ⟨?_, ?_, hjenc, ?_, ?_, ?_⟩
  · simp [resolve_match, hc, hmem]
  · intro j hj
    exact (np_argmin_spec _ hdne).2 j hj
  · have hp := List.findIdx_getElem (p := fun b => b == true) (w := hjlt)
    have hp2 : (compare_faces g.encodings dist enc tol).getD
        ((compare_faces g.encodings dist enc tol).findIdx (fun b => b == true)) false
        = true := by
      rw [List.getD_eq_getElem _ _ hjlt]
      simpa using hp
    rw [compare_faces_getD g.encodings dist enc tol _ hjenc] at hp2
    exact of_decide_eq_true hp2
  · intro i hi
    have hilt : i < (compare_faces g.encodings dist enc tol).length :=
      Nat.lt_of_lt_of_le hi (Nat.le_of_lt hjlt)
    have hienc : i < g.encodings.length := hmslen ▸ hilt
    have hnp := List.not_of_lt_findIdx (p := fun b => b == true) hi
    have hnp2 : (compare_faces g.encodings dist enc tol).getD i false = false := by
      rw [List.getD_eq_getElem _ _ hilt]
      simpa using hnp
    rw [compare_faces_getD g.encodings dist enc tol i hienc] at hnp2
    exact of_decide_eq_false hnp2
  · simp [recognize_face_name, hc, hmem]

/-- Witness for C7's amended statement: gallery encodings at distances 1
and 0 from the probe under tolerance 1. -/
theorem C7_single_best_match_amended_witness :
    matchedFace (⟨[(1 : ℚ), 0], ["Alice", "Bob"], ["friend", "colleague"]⟩ : Gallery ℚ)
        (fun a b => |a - b|) 1 0 = true ∧
    (⟨[(1 : ℚ), 0], ["Alice", "Bob"], ["friend", "colleague"]⟩ : Gallery ℚ).names.length
      = (⟨[(1 : ℚ), 0], ["Alice", "Bob"], ["friend", "colleague"]⟩ : Gallery ℚ).encodings.length ∧
    recognize_face_name [(1 : ℚ), 0] ["Alice", "Bob"] (fun a b => |a - b|) 1 0 =
      (["Alice", "Bob"] : List String).getD
        ((compare_faces [(1 : ℚ), 0] (fun a b => |a - b|) 0 1).findIdx (fun b => b == true)) "" ∧
    resolve_match (⟨[(1 : ℚ), 0], ["Alice", "Bob"], ["friend", "colleague"]⟩ : Gallery ℚ)
        (fun a b => |a - b|) 1 0 =
      some ((["Alice", "Bob"] : List String).getD
          (np_argmin (face_distances [(1 : ℚ), 0] (fun a b => |a - b|) 0)) "",
        (["friend", "colleague"] : List String).getD
          (np_argmin (face_distances [(1 : ℚ), 0] (fun a b => |a - b|) 0)) "") := by
  have hm : matchedFace (⟨[(1 : ℚ), 0], ["Alice", "Bob"], ["friend", "colleague"]⟩ : Gallery ℚ)
      (fun a b => |a - b|) 1 0 = true := by
    norm_num [matchedFace, compare_faces]
  have hlen : (⟨[(1 : ℚ), 0], ["Alice", "Bob"], ["friend", "colleague"]⟩ : Gallery ℚ).names.length
      = (⟨[(1 : ℚ), 0], ["Alice", "Bob"],
          ["friend", "colleague"]⟩ : Gallery ℚ).encodings.length := by
    simp
  have happ := C7_single_best_match_amended
    (⟨[(1 : ℚ), 0], ["Alice", "Bob"], ["friend", "colleague"]⟩ : Gallery ℚ)
    (fun a b => |a - b|) 1 0 hm hlen
  exact ⟨hm, hlen, happ.2.2.2.2.2, happ.1⟩

/-- Lexicographic string comparison is irreflexive. -/
theorem pyStrLtAux_irrefl : ∀ l : List Char, pyStrLtAux l l = false := by
  intro l
  induction l with
  | nil => rfl
  | cons c cs ih => simp [pyStrLtAux, ih]

/-- `pyStrLt` is irreflexive. -/
theorem pyStrLt_irrefl (s : String) : pyStrLt s s = false :=
  pyStrLtAux_irrefl s.data

/-- Filtering one key class commutes with stable insertion: an inserted
element of the class lands in front of the class (every element passed
over has a strictly smaller key), elements of other classes leave the
class untouched. -/
theorem filter_insertSorted {α : Type} (key : α → String) (k : String) (x : α)
    (l : List α) :
    (insertSorted key x l).filter (fun y => key y == k)
      = if key x == k then x :: l.filter (fun y => key y == k)
        else l.filter (fun y => key y == k) := by
  induction l with
  | nil => cases h : key x == k <;> simp [insertSorted, List.filter_cons, h]
  | cons y ys ih =>
    cases hle : pyStrLe (key x) (key y)
    · have hlt : pyStrLt (key y) (key x) = true := by
        cases hlt' : pyStrLt (key y) (key x)
        · simp [pyStrLe, hlt'] at hle
        · rfl
      have hstep : insertSorted key x (y :: ys) = y :: insertSorted key x ys := by
        simp [insertSorted, hle]
      rw [hstep]
      cases hx : key x == k
      · cases hy : key y == k <;>
          simp [List.filter_cons, hy, ih, hx]
      · have hxk : key x = k := eq_of_beq hx
        have hy : (key y == k) = false := by
          cases hyc : key y == k
          · rfl
          · have hyk : key y = k := eq_of_beq hyc
            rw [hyk, ← hxk] at hlt
            have hirr := pyStrLt_irrefl (key x)
            rw [hlt] at hirr
            cases hirr
        simp [List.filter_cons, hy, ih, hx]
    · have hstep : insertSorted key x (y :: ys) = x :: y :: ys := by
        simp [insertSorted, hle]
      rw [hstep]
      cases hx : key x == k <;> cases hy : key y == k <;>
        simp [List.filter_cons, hx, hy]

/-- Stability of the Python sort, per key class: filtering one key class
out of the sorted list gives exactly the class in its original order. -/
theorem filter_pySortByKey {α : Type} (key : α → String) (k : String) :
    ∀ l : List α,
      (pySortByKey key l).filter (fun y => key y == k) = l.filter (fun y => key y == k) := by
  intro l
  induction l with
  | nil => rfl
  | cons x xs ih =>
    have h := filter_insertSorted key k x (pySortByKey key xs)
    cases hx : key x == k <;>
      simp only [pySortByKey, h, hx, if_true, if_false, Bool.false_eq_true, ih,
        List.filter_cons]

/-- Insertion produces a permutation of consing. -/
theorem insertSorted_perm {α : Type} (key : α → String) (x : α) :
    ∀ l : List α, (insertSorted key x l).Perm (x :: l) := by
  intro l
  induction l with
  | nil => exact List.Perm.refl _
  | cons y ys ih =>
    cases hle : pyStrLe (key x) (key y)
    · have hstep : insertSorted key x (y :: ys) = y :: insertSorted key x ys := by
        simp [insertSorted, hle]
      rw [hstep]
      exact (ih.cons y).trans (List.Perm.swap x y ys)
    · have hstep : insertSorted key x (y :: ys) = x :: y :: ys := by
        simp [insertSorted, hle]
      rw [hstep]

/-- The Python sort permutes its input. -/
theorem pySortByKey_perm {α : Type} (key : α → String) :
    ∀ l : List α, (pySortByKey key l).Perm l := by
  intro l
  induction l with
  | nil => exact List.Perm.refl _
  | cons x xs ih =>
    exact (insertSorted_perm key x (pySortByKey key xs)).trans (ih.cons x)

/-- The `other_objects` list of `generate_description` (line 208): the
non-high detections of the sorted list. -/
def alsoSeen_objects (ds : List Detection) : List Detection :=
  (pySortByKey (fun d => d.priority) ds).filter (fun d => !(d.priority == "high"))

/-- Claim C6: for every non-empty detection list, the description is the
". "-join of an "Important" clause - present exactly when some high-tier
detection exists, listing precisely the high-tier detections in their
original detection order - followed by an "Also seen" clause - present
exactly when a non-high detection exists, listing every remaining
detection (a permutation of the non-high detections) with the detections
of each single priority tier in their original detection order. -/
theorem C6_description_grouping (ds : List Detection) (h : ds ≠ []) :
    generate_description ds = pyJoin ". "
      ((if (ds.filter (fun d => d.priority == "high")).isEmpty then []
        else ["Important: " ++ pyJoin ", "
          ((ds.filter (fun d => d.priority == "high")).map detection_phrase)]) ++
       (if (alsoSeen_objects ds).isEmpty then []
        else ["Also seen: " ++ pyJoin ", " ((alsoSeen_objects ds).map detection_phrase)])) ∧
    (alsoSeen_objects ds).Perm (ds.filter (fun d => !(d.priority == "high"))) ∧
    (∀ p : String, (p == "high") = false →
      (alsoSeen_objects ds).filter (fun d => d.priority == p)
        = ds.filter (fun d => d.priority == p)) := by
  have hhigh : (pySortByKey (fun d => d.priority) ds).filter (fun d => d.priority == "high")
      = ds.filter (fun d => d.priority == "high") :=
    filter_pySortByKey (fun d => d.priority) "high" ds
  refine ⟨?_, ?_, ?_⟩
  · have hne : ds.isEmpty = false := by
      cases ds
      · exact absurd rfl h
      · rfl
    simp only [generate_description, hne, Bool.false_eq_true, if_false, alsoSeen_objects,
      hhigh]
  · exact (pySortByKey_perm (fun d => d.priority) ds).filter _
  · intro p hp
    have h1 : (alsoSeen_objects ds).filter (fun d => d.priority == p)
        = (pySortByKey (fun d => d.priority) ds).filter
            (fun d => (d.priority == p) && (!(d.priority == "high"))) := by
      simp [alsoSeen_objects, List.filter_filter]
    have h2 : ∀ d ∈ pySortByKey (fun d => d.priority) ds,
        ((d.priority == p) && (!(d.priority == "high"))) = (d.priority == p) := by
      intro d _
      cases hd : d.priority == p
      · simp
      · have hdp : d.priority = p := eq_of_beq hd
        have : (d.priority == "high") = false := by
          rw [hdp]
          exact hp
        simp [this]
    rw [h1, List.filter_congr h2, filter_pySortByKey]

/-- Witness for C6: the spec scenario - a high-tier person at confidence
0.9 and a low-tier cup at confidence 0.7 - grouped as one "Important"
clause followed by one "Also seen" clause. -/
theorem C6_description_grouping_witness :
    ([⟨"person", "in the center middle, nearby", 9 / 10, "high"⟩,
      ⟨"cup", "on the left bottom, further away", 7 / 10, "low"⟩] : List Detection) ≠ [] ∧
    (generate_description
        [⟨"person", "in the center middle, nearby", 9 / 10, "high"⟩,
         ⟨"cup", "on the left bottom, further away", 7 / 10, "low"⟩] = pyJoin ". "
      ((if (([⟨"person", "in the center middle, nearby", 9 / 10, "high"⟩,
              ⟨"cup", "on the left bottom, further away", 7 / 10, "low"⟩] : List Detection).filter
            (fun d => d.priority == "high")).isEmpty then []
        else ["Important: " ++ pyJoin ", "
          ((([⟨"person", "in the center middle, nearby", 9 / 10, "high"⟩,
              ⟨"cup", "on the left bottom, further away", 7 / 10, "low"⟩] : List Detection).filter
            (fun d => d.priority == "high")).map detection_phrase)]) ++
       (if (alsoSeen_objects
            [⟨"person", "in the center middle, nearby", 9 / 10, "high"⟩,
             ⟨"cup", "on the left bottom, further away", 7 / 10, "low"⟩]).isEmpty then []
        else ["Also seen: " ++ pyJoin ", " ((alsoSeen_objects
            [⟨"person", "in the center middle, nearby", 9 / 10, "high"⟩,
             ⟨"cup", "on the left bottom, further away", 7 / 10, "low"⟩]).map detection_phrase)])) ∧
    (alsoSeen_objects
        [⟨"person", "in the center middle, nearby", 9 / 10, "high"⟩,
         ⟨"cup", "on the left bottom, further away", 7 / 10, "low"⟩]).Perm
      (([⟨"person", "in the center middle, nearby", 9 / 10, "high"⟩,
         ⟨"cup", "on the left bottom, further away", 7 / 10, "low"⟩] : List Detection).filter
        (fun d => !(d.priority == "high"))) ∧
    (∀ p : String, (p == "high") = false →
      (alsoSeen_objects
          [⟨"person", "in the center middle, nearby", 9 / 10, "high"⟩,
           ⟨"cup", "on the left bottom, further away", 7 / 10, "low"⟩]).filter
          (fun d => d.priority == p)
        = ([⟨"person", "in the center middle, nearby", 9 / 10, "high"⟩,
            ⟨"cup", "on the left bottom, further away", 7 / 10, "low"⟩] : List Detection).filter
          (fun d => d.priority == p))) := by
  exact ⟨by simp, C6_description_grouping
    [⟨"person", "in the center middle, nearby", 9 / 10, "high"⟩,
     ⟨"cup", "on the left bottom, further away", 7 / 10, "low"⟩] (by simp)⟩

/-- Joining never shortens the accumulator. -/
theorem pyJoin_foldl_length_ge (sep : String) :
    ∀ (xs : List String) (a : String),
      a.length ≤ (xs.foldl (fun acc y => acc ++ sep ++ y) a).length := by
  intro xs
  induction xs with
  | nil => intro a; simp
  | cons y ys ih =>
    intro a
    calc a.length ≤ (a ++ sep ++ y).length := by
          simp only [String.length_append]
          omega
    _ ≤ ((y :: ys).foldl (fun acc y => acc ++ sep ++ y) a).length := by
          rw [List.foldl_cons]
          exact ih (a ++ sep ++ y)

/-- The description string returned by `detect_objects` is never empty:
an empty detection list yields "No objects detected", a non-empty one
yields at least one clause starting with "Important: " or "Also seen: ". -/
theorem generate_description_length_pos (ds : List Detection) :
    0 < (generate_description ds).length := by
  match ds with
  | [] => decide
  | d :: ds' =>
    have hne : (d :: ds').isEmpty = false := rfl
    have hperm := pySortByKey_perm (fun d => d.priority) (d :: ds')
    have hmem : d ∈ pySortByKey (fun d => d.priority) (d :: ds') :=
      hperm.mem_iff.mpr (List.mem_cons_self d ds')
    simp only [generate_description, hne, Bool.false_eq_true, if_false]
    set sorted := pySortByKey (fun d => d.priority) (d :: ds') with hsorted
    cases hdp : d.priority == "high"
    · have hos : d ∈ sorted.filter (fun d => !(d.priority == "high")) :=
        List.mem_filter.mpr ⟨hmem, by simp [hdp]⟩
      have hosne : (sorted.filter (fun d => !(d.priority == "high"))).isEmpty = false := by
        cases he : sorted.filter (fun d => !(d.priority == "high"))
        · rw [he] at hos; cases hos
        · rfl
      simp only [hosne, Bool.false_eq_true, if_false]
      cases hh : (sorted.filter (fun d => d.priority == "high")).isEmpty
      · simp only [Bool.false_eq_true, if_false]
        have := pyJoin_foldl_length_ge ". "
          ["Also seen: " ++ pyJoin ", "
            ((sorted.filter (fun d => !(d.priority == "high"))).map detection_phrase)]
          ("Important: " ++ pyJoin ", "
            ((sorted.filter (fun d => d.priority == "high")).map detection_phrase))
        calc 0 < ("Important: ").length := by decide
        _ ≤ ("Important: " ++ pyJoin ", "
              ((sorted.filter (fun d => d.priority == "high")).map detection_phrase)).length := by
              simp [String.length_append]
        _ ≤ _ := by
              simpa [pyJoin] using this
      · simp only [if_true]
        calc 0 < ("Also seen: ").length := by decide
        _ ≤ ("Also seen: " ++ pyJoin ", "
              ((sorted.filter (fun d => !(d.priority == "high"))).map detection_phrase)).length := by
              simp [String.length_append]
        _ = (pyJoin ". " ["Also seen: " ++ pyJoin ", "
              ((sorted.filter (fun d => !(d.priority == "high"))).map detection_phrase)]).length := by
              simp [pyJoin]
        _ ≤ _ := le_of_eq rfl
    · have hhs : d ∈ sorted.filter (fun d => d.priority == "high") :=
        List.mem_filter.mpr ⟨hmem, hdp⟩
      have hhne : (sorted.filter (fun d => d.priority == "high")).isEmpty = false := by
        cases he : sorted.filter (fun d => d.priority == "high")
        · rw [he] at hhs; cases hhs
        · rfl
      simp only [hhne, Bool.false_eq_true, if_false]
      cases ho : (sorted.filter (fun d => !(d.priority == "high"))).isEmpty
      · simp only [Bool.false_eq_true, if_false]
        have := pyJoin_foldl_length_ge ". "
          ["Also seen: " ++ pyJoin ", "
            ((sorted.filter (fun d => !(d.priority == "high"))).map detection_phrase)]
          ("Important: " ++ pyJoin ", "
            ((sorted.filter (fun d => d.priority == "high")).map detection_phrase))
        calc 0 < ("Important: ").length := by decide
        _ ≤ ("Important: " ++ pyJoin ", "
              ((sorted.filter (fun d => d.priority == "high")).map detection_phrase)).length := by
              simp [String.length_append]
        _ ≤ _ := by
              simpa [pyJoin] using this
      · simp only [if_true]
        calc 0 < ("Important: ").length := by decide
        _ ≤ ("Important: " ++ pyJoin ", "
              ((sorted.filter (fun d => d.priority == "high")).map detection_phrase)).length := by
              simp [String.length_append]
        _ = (pyJoin ". " ["Important: " ++ pyJoin ", "
              ((sorted.filter (fun d => d.priority == "high")).map detection_phrase)]).length := by
              simp [pyJoin]
        _ ≤ _ := le_of_eq rfl

/-- Claim C3: the dynamic-typing model of the monitoring loop.  Whatever
the per-cycle detections are, `detect_objects` hands
`check_important_changes` a non-empty description string, whose first
iterated element is a one-character string, so the `obj["priority"]`
subscript raises `TypeError` on every cycle - the predicate never
completes, and the loop never actually evaluates the claimed disjunction. -/
theorem C3_monitoring_check_type_error {L : Type} (survivors : List Detection)
    (now : ℚ) (hist : TrackingHistory) (faces : List (Recognition L))
    (gestures : List String) :
    check_important_changes_dyn ((detect_objects_post survivors now hist).1) faces gestures
      = Except.error () := by
  have hlen := generate_description_length_pos survivors
  have hdata : (generate_description survivors).data ≠ [] := by
    intro he
    have h0 : (generate_description survivors).length = 0 := by
      show (generate_description survivors).data.length = 0
      rw [he]
      rfl
    rw [h0] at hlen
    cases hlen
  have hfirst : (detect_objects_post survivors now hist).1 = generate_description survivors := rfl
  rw [hfirst]
  unfold check_important_changes_dyn py_any_priority_high
  cases hd : (generate_description survivors).data with
  | nil => exact absurd hd hdata
  | cons c cs => simp [hd]

/-- Last element after pushing onto the front. -/
theorem getLast?_cons_or {α : Type} (a : α) (l : List α) :
    (a :: l).getLast? = l.getLast?.or (some a) := by
  induction l generalizing a with
  | nil => rfl
  | cons b t ih =>
    rw [List.getLast?_cons_cons, ih b]
    cases ht : t.getLast? <;> simp [Option.or]

/-- The keys of a Python dict after an update: unchanged when the key was
present, otherwise the key is appended. -/
theorem pyDictSet_keys {α : Type} (d : List (String × α)) (k : String) (v : α) :
    (pyDictSet d k v).map Prod.fst
      = if (d.map Prod.fst).contains k then d.map Prod.fst else d.map Prod.fst ++ [k] := by
  induction d with
  | nil => simp [pyDictSet]
  | cons p rest ih =>
    obtain ⟨k', v'⟩ := p
    cases hk : k' == k
    · have hkk : (k == k') = false := by
        have : k' ≠ k := by intro hh; simp [hh] at hk
        simpa using fun hh => this hh.symm
      simp only [pyDictSet, hk, Bool.false_eq_true, if_false, List.map_cons,
        List.contains_cons, hkk, Bool.false_or, ih]
      cases hc : (rest.map Prod.fst).contains k <;> simp
    · have hkk : (k == k') = true := by
        have := eq_of_beq hk
        simp [this]
      simp [pyDictSet, hk, List.contains_cons, hkk]

/-- A Python dict update preserves distinctness of keys. -/
theorem pyDictSet_keys_nodup {α : Type} (d : List (String × α)) (k : String) (v : α)
    (h : (d.map Prod.fst).Nodup) : ((pyDictSet d k v).map Prod.fst).Nodup := by
  rw [pyDictSet_keys]
  cases hc : (d.map Prod.fst).contains k
  · simp only [Bool.false_eq_true, if_false]
    have hk : k ∉ d.map Prod.fst := by
      intro hm
      have hnc : ¬((d.map Prod.fst).contains k = true) := by
        intro hh
        rw [hc] at hh
        cases hh
      exact hnc (List.contains_iff_exists_mem_beq.mpr ⟨k, hm, by simp⟩)
    rw [List.nodup_append]
    refine ⟨h, List.nodup_singleton _, ?_⟩
    intro a ha hb
    simp only [List.mem_singleton] at hb
    exact hk (hb ▸ ha)
  · simpa using h

/-- The `current_detections` dict always has distinct labels as keys. -/
theorem build_current_detections_keys_nodup (survivors : List Detection) :
    ((build_current_detections survivors).map Prod.fst).Nodup := by
  have : ∀ (l : List Detection) (acc : List (String × Detection)),
      (acc.map Prod.fst).Nodup →
      ((l.foldl (fun d det => pyDictSet d det.label det) acc).map Prod.fst).Nodup := by
    intro l
    induction l with
    | nil => intro acc h; exact h
    | cons det rest ih =>
      intro acc h
      exact ih _ (pyDictSet_keys_nodup acc det.label det h)
  exact this survivors [] (by simp)

/-- Lookup through the label-keyed upsert fold: the last matching
detection wins, falling back to the accumulator for absent labels. -/
theorem foldl_upsert_lookup :
    ∀ (survivors : List Detection) (acc : List (String × Detection)) (lbl : String),
      pyDictGet (survivors.foldl (fun d det => pyDictSet d det.label det) acc) lbl
        = ((survivors.filter (fun det => det.label == lbl)).getLast?).or (pyDictGet acc lbl) := by
  intro survivors
  induction survivors with
  | nil => intro acc lbl; simp
  | cons det rest ih =>
    intro acc lbl
    rw [List.foldl_cons, ih]
    cases hl : det.label == lbl
    · simp only [List.filter_cons, hl, Bool.false_eq_true, if_false]
      rw [pyDictGet_set]
      simp [hl]
    · simp only [List.filter_cons, hl, if_true]
      rw [getLast?_cons_or, pyDictGet_set, hl]
      cases hrest : (rest.filter (fun det => det.label == lbl)).getLast? <;>
        simp [Option.or]

/-- Folding the per-label append over keys other than `lbl` leaves the
lookup at `lbl` unchanged. -/
theorem foldl_append_lookup_other (now : ℚ) :
    ∀ (cd : List (String × Detection)) (hist : TrackingHistory) (lbl : String),
      lbl ∉ cd.map Prod.fst →
      pyDictGet (cd.foldl
          (fun h (p : String × Detection) =>
            pyDictSet h p.1 (((pyDictGet h p.1).getD []) ++ [(now, p.2)])) hist) lbl
        = pyDictGet hist lbl := by
  intro cd
  induction cd with
  | nil => intro hist lbl _; rfl
  | cons p rest ih =>
    intro hist lbl hmem
    obtain ⟨k, v⟩ := p
    have hk : (k == lbl) = false := by
      have : k ≠ lbl := by
        intro hh
        exact hmem (by simp [hh])
      simpa using this
    rw [List.foldl_cons, ih _ _ (by intro hh; exact hmem (by simp [hh]))]
    rw [pyDictGet_set, hk]
    simp

/-- Lookup after the per-label append fold, at a key present in a
distinct-keys dict: exactly one entry, the dict's value, is appended to
that label's history. -/
theorem foldl_append_lookup (now : ℚ) :
    ∀ (cd : List (String × Detection)) (hist : TrackingHistory) (lbl : String)
      (d : Detection),
      (cd.map Prod.fst).Nodup →
      pyDictGet cd lbl = some d →
      pyDictGet (cd.foldl
          (fun h (p : String × Detection) =>
            pyDictSet h p.1 (((pyDictGet h p.1).getD []) ++ [(now, p.2)])) hist) lbl
        = some (((pyDictGet hist lbl).getD []) ++ [(now, d)]) := by
  intro cd
  induction cd with
  | nil => intro hist lbl d _ h; cases h
  | cons p rest ih =>
    intro hist lbl d hnodup hget
    obtain ⟨k, v⟩ := p
    rw [List.foldl_cons]
    cases hk : k == lbl
    · have hget' : pyDictGet rest lbl = some d := by
        simpa [pyDictGet, List.find?, hk] using hget
      have hnodup' : (rest.map Prod.fst).Nodup := by
        simpa using hnodup.of_cons
      rw [ih _ lbl d hnodup' hget']
      rw [pyDictGet_set, hk]
      simp
    · have hkl : k = lbl := eq_of_beq hk
      have hvd : v = d := by
        have : pyDictGet ((k, v) :: rest) lbl = some v := by
          simp [pyDictGet, List.find?, hk]
        rw [this] at hget
        exact Option.some.injEq _ _ ▸ hget |>.symm ▸ rfl
      subst hkl
      have hnotin : k ∉ rest.map Prod.fst := by
        have := hnodup
        simp only [List.map_cons, List.nodup_cons] at this
        exact this.1
      rw [foldl_append_lookup_other now rest _ k hnotin]
      rw [pyDictGet_set]
      simp only [beq_self_eq_true, if_true]
      rw [hvd]

/-- Mapping a function over dict values commutes with lookup. -/
theorem pyDictGet_map_values {α β : Type} (f : α → β) :
    ∀ (l : List (String × α)) (lbl : String),
      pyDictGet (l.map (fun p => (p.1, f p.2))) lbl = (pyDictGet l lbl).map f := by
  intro l
  induction l with
  | nil => intro lbl; rfl
  | cons p rest ih =>
    intro lbl
    obtain ⟨k, v⟩ := p
    cases hk : k == lbl
    · simpa [pyDictGet, List.find?, hk] using ih lbl
    · simp [pyDictGet, List.find?, hk]

/-- Filtering out empty-history labels preserves the lookup of a label
whose history is non-empty. -/
theorem pyDictGet_filter_nonempty {α : Type} :
    ∀ (l : List (String × List α)) (lbl : String) (v : List α),
      pyDictGet l lbl = some v → v ≠ [] →
      pyDictGet (l.filter (fun p => !p.2.isEmpty)) lbl = some v := by
  intro l
  induction l with
  | nil => intro lbl v h _; cases h
  | cons p rest ih =>
    intro lbl v hget hne
    obtain ⟨k, w⟩ := p
    cases hk : k == lbl
    · have hget' : pyDictGet rest lbl = some v := by
        simpa [pyDictGet, List.find?, hk] using hget
      cases hw : w.isEmpty
      · simp only [List.filter_cons, hw, Bool.not_false, if_true]
        simpa [pyDictGet, List.find?, hk] using ih lbl v hget' hne
      · simp only [List.filter_cons, hw, Bool.not_true, Bool.false_eq_true, if_false]
        exact ih lbl v hget' hne
    · have hwv : w = v := by
        have : pyDictGet ((k, w) :: rest) lbl = some w := by
          simp [pyDictGet, List.find?, hk]
        rw [this] at hget
        simpa using hget
      subst hwv
      have hw : w.isEmpty = false := by
        cases w
        · exact absurd rfl hne
        · rfl
      simp only [List.filter_cons, hw, Bool.not_false, if_true]
      simp [pyDictGet, List.find?, hk]

/-- Claim C10: in each `detect_objects` call the `current_detections`
dict holds at most one detection per distinct label - exactly the last
surviving one processed - and `update_tracking` appends exactly that
detection (with the call timestamp) as the new last entry of that
label's tracking history, which survives the retention purge; meanwhile
the full detection list (duplicates included) is what the spoken
description is generated from. -/
theorem C10_tracking_one_per_label (survivors : List Detection) :
    ((build_current_detections survivors).map Prod.fst).Nodup ∧
    (∀ lbl, pyDictGet (build_current_detections survivors) lbl
        = (survivors.filter (fun det => det.label == lbl)).getLast?) ∧
    (detect_objects_post survivors = fun now hist =>
      (generate_description survivors,
        update_tracking now (build_current_detections survivors) hist)) ∧
    (∀ (now : ℚ) (hist : TrackingHistory) (lbl : String) (d : Detection),
      pyDictGet (build_current_detections survivors) lbl = some d →
      ∃ entries,
        pyDictGet (update_tracking now (build_current_detections survivors) hist) lbl
            = some entries ∧
        entries.getLast? = some (now, d) ∧ entries ≠ []) := by
  refine ⟨build_current_detections_keys_nodup survivors, ?_, rfl, ?_⟩
  · intro lbl
    have h := foldl_upsert_lookup survivors [] lbl
    have hnil : pyDictGet ([] : List (String × Detection)) lbl = none := rfl
    rw [hnil] at h
    have hor : ((survivors.filter (fun det => det.label == lbl)).getLast?).or none
        = (survivors.filter (fun det => det.label == lbl)).getLast? := by
      cases (survivors.filter (fun det => det.label == lbl)).getLast? <;> rfl
    rw [hor] at h
    exact h
  · intro now hist lbl d hget
    have hnodup := build_current_detections_keys_nodup survivors
    have h1 : pyDictGet ((build_current_detections survivors).foldl
        (fun h (p : String × Detection) =>
          pyDictSet h p.1 (((pyDictGet h p.1).getD []) ++ [(now, p.2)])) hist) lbl
        = some (((pyDictGet hist lbl).getD []) ++ [(now, d)]) :=
      foldl_append_lookup now (build_current_detections survivors) hist lbl d hnodup hget
    have h2 : pyDictGet (((build_current_detections survivors).foldl
        (fun h (p : String × Detection) =>
          pyDictSet h p.1 (((pyDictGet h p.1).getD []) ++ [(now, p.2)])) hist).map
          (fun p => (p.1, p.2.filter (fun e => decide (e.1 > now - 5))))) lbl
        = some ((((pyDictGet hist lbl).getD []) ++ [(now, d)]).filter
            (fun e => decide (e.1 > now - 5))) := by
      rw [pyDictGet_map_values, h1]
      rfl
    have hq : (fun (e : ℚ × Detection) => decide (e.1 > now - 5)) (now, d) = true := by
      simp only [decide_eq_true_eq]
      linarith
    have hfiltval : (((pyDictGet hist lbl).getD []) ++ [(now, d)]).filter
          (fun e => decide (e.1 > now - 5))
        = (((pyDictGet hist lbl).getD []).filter (fun e => decide (e.1 > now - 5)))
            ++ [(now, d)] := by
      rw [List.filter_append]
      simp [List.filter_cons, hq]
    have hlast : ((((pyDictGet hist lbl).getD []) ++ [(now, d)]).filter
          (fun e => decide (e.1 > now - 5))).getLast? = some (now, d) := by
      rw [hfiltval]
      exact List.getLast?_concat _
    have hne : (((pyDictGet hist lbl).getD []) ++ [(now, d)]).filter
          (fun e => decide (e.1 > now - 5)) ≠ [] := by
      rw [hfiltval]
      simp
    refine ⟨_, ?_, hlast, hne⟩
    exact pyDictGet_filter_nonempty _ lbl _ h2 hne

/-- Witness for C10: two surviving "cup" detections around a "person";
the dict keeps only the second cup, and the tracking update appends
exactly that one for the "cup" label. -/
theorem C10_tracking_one_per_label_witness :
    pyDictGet (build_current_detections
        [⟨"cup", "loc a", 1, "low"⟩, ⟨"person", "loc b", 1, "high"⟩,
         ⟨"cup", "loc c", 1, "low"⟩]) "cup" = some ⟨"cup", "loc c", 1, "low"⟩ ∧
    ((build_current_detections
        [⟨"cup", "loc a", 1, "low"⟩, ⟨"person", "loc b", 1, "high"⟩,
         ⟨"cup", "loc c", 1, "low"⟩]).map Prod.fst).Nodup ∧
    (∃ entries,
      pyDictGet (update_tracking 10 (build_current_detections
          [⟨"cup", "loc a", 1, "low"⟩, ⟨"person", "loc b", 1, "high"⟩,
           ⟨"cup", "loc c", 1, "low"⟩]) []) "cup" = some entries ∧
      entries.getLast? = some ((10 : ℚ), ⟨"cup", "loc c", 1, "low"⟩) ∧ entries ≠ []) := by
  have hthm := C10_tracking_one_per_label
    [⟨"cup", "loc a", 1, "low"⟩, ⟨"person", "loc b", 1, "high"⟩, ⟨"cup", "loc c", 1, "low"⟩]
  have hget : pyDictGet (build_current_detections
      [⟨"cup", "loc a", 1, "low"⟩, ⟨"person", "loc b", 1, "high"⟩,
       ⟨"cup", "loc c", 1, "low"⟩]) "cup" = some ⟨"cup", "loc c", 1, "low"⟩ := by
    rw [hthm.2.1 "cup"]
    simp [List.filter_cons, getLast?_cons_or, Option.or]
  exact ⟨hget, hthm.1, hthm.2.2.2 10 [] "cup" _ hget⟩
